import Mathlib

/-!
Verification model of the permission-scoped RAG chat backend.

The definitions below are shallow embeddings of the Python source:

* `app/services/bedrock.py` — access resolution (`get_allowed_s3_paths`),
  domain classification (`extract_kb_domain_from_s3_uri`) and retrieval
  filtering (`filter_retrieval_results`);
* `app/services/db_service.py` — conversation / message persistence;
* `app/routers/chat.py` — request validation and the SSE streaming turn;
* `app/routers/history.py` — conversation-history endpoints.

Dictionaries of the mock registry are modelled as association lists in
iteration order; the database rows as lists of records.  String
operations of the Python standard library (`split`, `strip`,
`startswith`, `endswith`, `in`, `urlparse`) are modelled by structural
functions on the character list of the string, so that every definition
evaluates inside the kernel.  Machine-level details (asyncio scheduling,
the SSE wire format, JSON serialisation) are abstracted: events are an
inductive type and timestamps are naturals.
-/

/-! ### String helpers (models of the Python string operations) -/

/-- `s.split(sep)` for a one-character separator: Python `str.split`
keeps empty fields, and `"".split(",") = [""]`. -/
def splitOnChar (sep : Char) : List Char → List (List Char)
  | [] => [[]]
  | c :: rest =>
    let r := splitOnChar sep rest
    if c = sep then [] :: r
    else (c :: r.headD []) :: r.tail

/-- `str.strip()` with no argument: remove leading and trailing
whitespace. -/
def stripChars (l : List Char) : List Char :=
  ((l.dropWhile Char.isWhitespace).reverse.dropWhile Char.isWhitespace).reverse

/-- Python `s.startswith(p)`. -/
def strStartsWith (s p : String) : Bool := p.data.isPrefixOf s.data

/-- Python `s.endswith(p)`. -/
def strEndsWith (s p : String) : Bool := p.data.isSuffixOf s.data

/-- Python `p in s` (substring containment). -/
def infixChars (p : List Char) : List Char → Bool
  | [] => p.isEmpty
  | c :: rest => p.isPrefixOf (c :: rest) || infixChars p rest

def substrOf (p s : String) : Bool := infixChars p.data s.data

/-! ### Registry data model (`MOCK_KB_DOMAINS` / `MOCK_GROUP_CODES`,
the `kb_domains` / `group_codes` tables) -/

/-- One row of the `kb_domains` table / one entry of `MOCK_KB_DOMAINS`
(`bedrock.py` reads only `code`, `name` and `s3_path`). -/
structure KBDomain where
  code : String
  name : String
  s3_path : String
deriving DecidableEq, Repr

/-- One row of the `group_codes` table / one entry of `MOCK_GROUP_CODES`:
`kb_domains` is the comma-separated list of domain codes. -/
structure GroupInfo where
  code : String
  kb_domains : String
deriving DecidableEq, Repr

/-- The registry backing store: `kb_domains` in iteration order
(dict insertion order for the mock, `ORDER BY code` for the database)
and the group table. -/
structure Registry where
  kb_domains : List KBDomain
  group_codes : List GroupInfo
deriving DecidableEq, Repr

/-- `[d.strip() for d in s.split(",") if d.strip()]` from
`_get_allowed_s3_paths` (`bedrock.py` line 346). -/
def splitCSV (s : String) : List String :=
  (((splitOnChar ',' s.data).map stripChars).filter (fun d => d.isEmpty = false)).map String.mk

/-- First group row whose `code` equals `g` (dict lookup / `WHERE code = $1`). -/
def findGroup (reg : Registry) (g : String) : Option GroupInfo :=
  reg.group_codes.find? (fun gi => gi.code = g)

/-- First domain row whose `code` equals `c` (dict lookup / `WHERE code = $1`). -/
def findDomain (reg : Registry) (c : String) : Option KBDomain :=
  reg.kb_domains.find? (fun d => d.code = c)

/-- Python truthiness test for an optional string (`if not x`). -/
def isFalsy : Option String → Bool
  | none => true
  | some s => s = ""

/-- `BedrockService._get_allowed_s3_paths` (`bedrock.py` lines 322-380,
mock branch; the database branch at lines 355-380 has the same
structure: a missing group row and an empty `kb_domains` string both
give `[]`, and the `WHERE code IN (...)` lookup keeps only the codes
that exist).  Domain codes of the group that are absent from
`kb_domains` are skipped without any signal. -/
def get_allowed_s3_paths (reg : Registry) (group_code : Option String) : List String :=
  if isFalsy group_code then []
  else
    let g := group_code.getD ""
    match findGroup reg g with
    | none => []
    | some gi =>
      (splitCSV gi.kb_domains).filterMap (fun c => (findDomain reg c).map (fun d => d.s3_path))

/-! ### Domain classification and retrieval filtering -/

/-- Part of an S3 URI after the first `"://"`, or `none` when the URI has
no scheme separator. -/
def dropScheme : List Char → Option (List Char)
  | [] => none
  | ':' :: '/' :: '/' :: rest => some rest
  | _ :: rest => dropScheme rest

/-- Drop the netloc: everything up to and including the first `'/'`
(empty when there is no path). -/
def dropNetlocChars : List Char → List Char
  | [] => []
  | '/' :: rest => rest
  | _ :: rest => dropNetlocChars rest

/-- `urlparse(s3_uri).path.lstrip('/')` as used in
`_extract_kb_domain_from_s3_uri` (`bedrock.py` lines 422-425): for a
`scheme://netloc/path` URI the scheme and netloc are dropped, for a
plain string the whole string is the path; leading slashes are then
stripped. -/
def uriPath (uri : String) : String :=
  match dropScheme uri.data with
  | none => String.mk (uri.data.dropWhile (fun c => c = '/'))
  | some rest => String.mk ((dropNetlocChars rest).dropWhile (fun c => c = '/'))

/-- `BedrockService._extract_kb_domain_from_s3_uri` (`bedrock.py` lines
411-446): returns the code of the FIRST registry domain, in iteration
order, whose `s3_path` is a string prefix of the path component.  There
is no longest-match rule and no tie error in the source. -/
def extract_kb_domain_from_s3_uri (reg : Registry) (s3_uri : String) : Option String :=
  (reg.kb_domains.find? (fun d => strStartsWith (uriPath s3_uri) d.s3_path)).map (fun d => d.code)

/-- One retrieval hit as consumed by `_filter_retrieval_results`:
`s3_uri` is `result["location"]["s3Location"]["uri"]` when present
(`none` models a missing `s3Location`/`uri`), `content` is the snippet. -/
structure RetrievalHit where
  s3_uri : Option String
  content : String
deriving DecidableEq, Repr

/-- `if not s3_uri` (`bedrock.py` line 479): missing or empty URI is falsy. -/
def hasUri (h : RetrievalHit) : Bool :=
  match h.s3_uri with
  | none => false
  | some s => s ≠ ""

/-- `any(s3_uri.endswith(path) or path in s3_uri for path in allowed_s3_paths)`
(`bedrock.py` line 512). -/
def pathMatch (allowed_s3_paths : List String) (s3_uri : String) : Bool :=
  allowed_s3_paths.any (fun p => strEndsWith s3_uri p || substrOf p s3_uri)

/-- Result record of `_filter_retrieval_results` (`bedrock.py` lines
518-523).  `blocked_domains` models the Python `set` (membership is the
meaningful content; duplicates are never added). -/
structure FilterResult where
  allowed : List RetrievalHit
  blocked : List RetrievalHit
  blocked_domains : List String
  has_permission_violation : Bool
deriving DecidableEq, Repr

/-- `blocked_domains.add(kb_domain)` — set insertion. -/
def insertDomain (d : String) (bd : List String) : List String :=
  if bd.contains d then bd else d :: bd

/-- Loop body of `_filter_retrieval_results` (`bedrock.py` lines
472-516), processed front to back; returns
(allowed, blocked, blocked_domains).  A hit with no (or empty) URI is
allowed unconditionally; a classified hit is allowed iff its domain's
`s3_path` is truthy and in the allow-list; an unclassified hit is
allowed iff `pathMatch` succeeds — and, when blocked, contributes
nothing to `blocked_domains`. -/
def filterStep (reg : Registry) (paths : List String) (h : RetrievalHit)
    (r : List RetrievalHit × List RetrievalHit × List String) :
    List RetrievalHit × List RetrievalHit × List String :=
  if hasUri h = false then (h :: r.1, r.2.1, r.2.2)
  else
    match extract_kb_domain_from_s3_uri reg (h.s3_uri.getD "") with
    | some d =>
      match (findDomain reg d).map (fun k => k.s3_path) with
      | some p =>
        if p ≠ "" ∧ p ∈ paths then (h :: r.1, r.2.1, r.2.2)
        else (r.1, h :: r.2.1, insertDomain d r.2.2)
      | none => (r.1, h :: r.2.1, insertDomain d r.2.2)
    | none =>
      if pathMatch paths (h.s3_uri.getD "") then (h :: r.1, r.2.1, r.2.2)
      else (r.1, h :: r.2.1, r.2.2)

def filterTriple (reg : Registry) (paths : List String) :
    List RetrievalHit → List RetrievalHit × List RetrievalHit × List String
  | [] => ([], [], [])
  | h :: rest => filterStep reg paths h (filterTriple reg paths rest)

/-- `BedrockService._filter_retrieval_results` (`bedrock.py` lines
448-523): `has_permission_violation = len(blocked_results) > 0`. -/
def filter_retrieval_results (reg : Registry) (retrieval_results : List RetrievalHit)
    (allowed_s3_paths : List String) : FilterResult :=
  let r := filterTriple reg allowed_s3_paths retrieval_results
  { allowed := r.1
    blocked := r.2.1
    blocked_domains := r.2.2
    has_permission_violation := r.2.1 ≠ [] }

/-! ### Persistence layer (`app/services/db_service.py`) -/

/-- A source entry of a message's metadata
(`MessageMetadataSource` in `app/models/history.py`). -/
structure SourceEntry where
  title : String
  page : Option Nat
  relevance : Option Nat
  document_id : String
  kb_domain : Option String
deriving DecidableEq, Repr

/-- `MessageMetadata` (`app/models/history.py`): the structured block
stored with an assistant message. -/
structure MessageMeta where
  sources : List SourceEntry
  tokens : Option Nat
  model : String
  duration_ms : Nat
deriving DecidableEq, Repr

/-- One row of the `messages` table.  `message_id` is the BIGSERIAL
primary key; `created_at` is a natural-number timestamp. -/
structure MsgRow where
  message_id : Nat
  conversation_id : String
  role : String
  content : String
  metadata : Option MessageMeta
  created_at : Nat
deriving DecidableEq, Repr

/-- One row of the `conversations` table. -/
structure ConvRow where
  conversation_id : String
  corp_id : String
  employee_id : String
  user_name : String
  department : String
  title : String
  message_count : Nat
  created_at : Nat
  updated_at : Nat
deriving DecidableEq, Repr

/-- The relational store: both tables plus the BIGSERIAL counter that
assigns `message_id`s. -/
structure DB where
  conversations : List ConvRow
  messages : List MsgRow
  next_message_id : Nat
deriving DecidableEq, Repr

/-- `SELECT ... FROM conversations WHERE conversation_id = $1`. -/
def lookupConv (db : DB) (cid : String) : Option ConvRow :=
  db.conversations.find? (fun c => c.conversation_id = cid)

/-- `db_service.get_conversation` (lines 27-96): the conversation row and
its messages (the `ORDER BY created_at ASC` of the source is modelled by
insertion order, which the write path below maintains). -/
def get_conversation (db : DB) (cid : String) : Option (ConvRow × List MsgRow) :=
  match lookupConv db cid with
  | none => none
  | some c => some (c, db.messages.filter (fun m => m.conversation_id = cid))

/-- `UPDATE conversations SET message_count = message_count + 1,
updated_at = $1 WHERE conversation_id = $2` applied to one row. -/
def bumpConv (now : Nat) (cid : String) (c : ConvRow) : ConvRow :=
  if c.conversation_id = cid then
    { c with message_count := c.message_count + 1, updated_at := now }
  else c

/-- `db_service.add_message` (lines 150-217).  The source runs the
existence check, the message INSERT and the `message_count` UPDATE
inside one `conn.transaction()`; the model is therefore a single state
transition that either performs both writes or neither.  Returns the
new store and the inserted row (`None` when the conversation does not
exist). -/
def add_message (db : DB) (cid role content : String) (metadata : Option MessageMeta)
    (now : Nat) : DB × Option MsgRow :=
  match lookupConv db cid with
  | none => (db, none)
  | some _ =>
    let m : MsgRow :=
      { message_id := db.next_message_id
        conversation_id := cid
        role := role
        content := content
        metadata := metadata
        created_at := now }
    ({ conversations := db.conversations.map (bumpConv now cid)
       messages := db.messages ++ [m]
       next_message_id := db.next_message_id + 1 }, some m)

/-- `WHERE conversation_id = $1 AND role = $2` filter of
`remove_last_message` (the `role` filter is optional). -/
def msgMatches (cid : String) (role : Option String) (m : MsgRow) : Bool :=
  m.conversation_id = cid &&
    (match role with
     | none => true
     | some r => m.role = r)

/-- `m` sorts strictly after `b` under `ORDER BY created_at DESC`.
The SQL leaves equal timestamps in unspecified order; the fold below
keeps the earliest-scanned row among ties, and every theorem that
depends on WHICH row is removed assumes a strictly latest timestamp, so
that its conclusion holds under every resolution of the tie. -/
def laterThan (b m : MsgRow) : Bool :=
  b.created_at < m.created_at

/-- Fold step selecting the row that sorts last. -/
def pickStep (acc : Option MsgRow) (m : MsgRow) : Option MsgRow :=
  match acc with
  | none => some m
  | some b => if laterThan b m then some m else some b

/-- The row selected by `ORDER BY created_at DESC LIMIT 1`. -/
def pickLast (l : List MsgRow) : Option MsgRow := l.foldl pickStep none

/-- `UPDATE conversations SET message_count = GREATEST(message_count - 1, 0),
updated_at = $1 WHERE conversation_id = $2` applied to one row
(natural-number subtraction is exactly `GREATEST(x - 1, 0)`). -/
def decConv (now : Nat) (cid : String) (c : ConvRow) : ConvRow :=
  if c.conversation_id = cid then
    { c with message_count := c.message_count - 1, updated_at := now }
  else c

/-- `db_service.remove_last_message` (lines 220-291): deletes the most
recent message of the conversation (optionally restricted to a role) and
decrements the conversation's count, inside one transaction. -/
def remove_last_message (db : DB) (cid : String) (role : Option String) (now : Nat) :
    DB × Bool :=
  match lookupConv db cid with
  | none => (db, false)
  | some _ =>
    match pickLast (db.messages.filter (msgMatches cid role)) with
    | none => (db, false)
    | some m =>
      ({ conversations := db.conversations.map (decConv now cid)
         messages := db.messages.filter (fun x => x.message_id ≠ m.message_id)
         next_message_id := db.next_message_id }, true)

/-- `db_service.create_conversation` (lines 99-147): inserts a fresh
conversation row with `message_count = 0`; an absent or empty title
becomes the default (`title or "새 대화"`). -/
def create_conversation (db : DB) (cid corp_id employee_id user_name department : String)
    (title : Option String) (now : Nat) : DB × ConvRow :=
  let t := match title with
    | none => "새 대화"
    | some s => if s = "" then "새 대화" else s
  let c : ConvRow :=
    { conversation_id := cid
      corp_id := corp_id
      employee_id := employee_id
      user_name := user_name
      department := department
      title := t
      message_count := 0
      created_at := now
      updated_at := now }
  ({ db with conversations := db.conversations ++ [c] }, c)

/-- `db_service.update_conversation_title` (lines 350-375): updates the
row (no existence check) and re-reads the conversation. -/
def update_conversation_title (db : DB) (cid title : String) (now : Nat) :
    DB × Option (ConvRow × List MsgRow) :=
  let db' : DB :=
    { db with
      conversations := db.conversations.map (fun c =>
        if c.conversation_id = cid then { c with title := title, updated_at := now } else c) }
  (db', get_conversation db' cid)

/-- `db_service.delete_conversation` (lines 378-413): deletes the
conversation's messages and the conversation row in one transaction. -/
def delete_conversation (db : DB) (cid : String) : DB × Bool :=
  match lookupConv db cid with
  | none => (db, false)
  | some _ =>
    ({ conversations := db.conversations.filter (fun c => c.conversation_id ≠ cid)
       messages := db.messages.filter (fun m => m.conversation_id ≠ cid)
       next_message_id := db.next_message_id }, true)

/-! ### SSE events and the streaming turn (`app/routers/chat.py`) -/

/-- The typed SSE events emitted by `generate_stream`
(`format_sse_event` event types `start`, `token`, `metadata`, `done`,
`error`; payload fields as in the source, timestamps as naturals). -/
inductive SSE where
  | start (conversation_id : String) (timestamp : Nat)
  | token (content : String)
  | metadata (sources : List SourceEntry)
  | done (total_tokens : Nat) (duration_ms : Nat)
  | error (etype : String) (msg : String)
deriving DecidableEq, Repr

def SSE.isToken : SSE → Bool
  | .token _ => true
  | _ => false

/-- `done` and `error` are the terminal event kinds of the contract. -/
def SSE.isTerminal : SSE → Bool
  | .done _ _ => true
  | .error _ _ => true
  | _ => false

/-- One event yielded by `BedrockService.retrieve_and_generate_stream`:
a dict that may carry `error`, `usage`, `text`, `citations` and
`retrievalResults` keys (absent keys are `none` / `""` / `[]`). -/
structure Citation where
  title : String
  s3_uri : String
deriving DecidableEq, Repr

structure BedrockEvent where
  error : Option (String × String) := none
  usage : Option Nat := none
  text : String := ""
  citations : List Citation := []
  retrievalResults : List RetrievalHit := []
deriving DecidableEq, Repr

/-- `text[i:i+chunk_size]` slicing with `chunk_size = 10`
(`chat.py` lines 258-264): split a character list into chunks of at
most 10.  `cur` is the current chunk reversed and `k` its remaining
capacity. -/
def chunkCharsAux (cur : List Char) (k : Nat) : List Char → List (List Char)
  | [] => if cur.isEmpty then [] else [cur.reverse]
  | c :: rest =>
    match k with
    | 0 => cur.reverse :: chunkCharsAux [c] 9 rest
    | k' + 1 => chunkCharsAux (c :: cur) k' rest

def chunkChars (l : List Char) : List (List Char) := chunkCharsAux [] 10 l

def chunk10 (s : String) : List String := (chunkChars s.data).map String.mk

/-- Mutable state of the `async for bedrock_event in ...` loop of
`generate_stream` (`chat.py` lines 200-271): the SSE events yielded so
far, `full_text`, `total_tokens`, the captured `citations` and
`retrieval_results`, and whether the error branch has returned. -/
structure LoopState where
  sse : List SSE
  fullText : String
  totalTokens : Nat
  citations : List Citation
  results : List RetrievalHit
  errored : Bool
deriving DecidableEq, Repr

/-- One iteration of the loop (`chat.py` lines 206-271).  An `error`
key yields one `error` event and leaves the generator (modelled by the
`errored` flag freezing the state; the accompanying rollback is applied
by `generate_stream` below).  Otherwise `usage` overwrites
`total_tokens`, a non-empty `text` is chunked into `token` events and
appended to `full_text`, and non-empty `citations` /
`retrievalResults` overwrite the captured values. -/
def loopStep (st : LoopState) (e : BedrockEvent) : LoopState :=
  if st.errored then st
  else
    match e.error with
    | some tm => { st with sse := st.sse ++ [SSE.error tm.1 tm.2], errored := true }
    | none =>
      { sse := if e.text = "" then st.sse else st.sse ++ (chunk10 e.text).map SSE.token
        fullText := if e.text = "" then st.fullText else st.fullText ++ e.text
        totalTokens := match e.usage with
          | some n => n
          | none => st.totalTokens
        citations := if e.citations.isEmpty then st.citations else e.citations
        results := if e.retrievalResults.isEmpty then st.results else e.retrievalResults
        errored := false }

def runLoop (bevts : List BedrockEvent) : LoopState :=
  bevts.foldl loopStep
    { sse := [], fullText := "", totalTokens := 0, citations := [], results := [], errored := false }

/-- `s3_uri.split("/")[-1]` (`chat.py` line 290). -/
def lastSegment (s : String) : String :=
  String.mk (((splitOnChar '/' s.data).getLastD []))

/-- One entry of the `metadata` event's `sources` (`chat.py` lines
277-298): title from the citation, no page or relevance, `document_id`
the last URI segment, `kb_domain` classified from the URI. -/
def buildSource (reg : Registry) (c : Citation) : SourceEntry :=
  { title := c.title
    page := none
    relevance := none
    document_id := if c.s3_uri = "" then "" else lastSegment c.s3_uri
    kb_domain := if c.s3_uri = "" then none else extract_kb_domain_from_s3_uri reg c.s3_uri }

/-- `metadata_sources` of `chat.py` lines 274-298: built from the
captured citations when the branch `if citations or retrieval_results`
is taken, empty otherwise. -/
def metadataSourcesOf (reg : Registry) (out : LoopState) : List SourceEntry :=
  if out.citations.isEmpty && out.results.isEmpty then []
  else out.citations.map (buildSource reg)

/-- The at-most-one `metadata` event of `chat.py` lines 275-312. -/
def metaEvtsOf (reg : Registry) (out : LoopState) : List SSE :=
  if out.citations.isEmpty && out.results.isEmpty then []
  else [SSE.metadata (metadataSourcesOf reg out)]

/-- `message_metadata` of `chat.py` lines 326-334: `None` when sources,
tokens and duration are all falsy. -/
def assistantMetaOf (reg : Registry) (out : LoopState) (durationMs : Nat)
    (modelName : String) : Option MessageMeta :=
  if (metadataSourcesOf reg out).isEmpty && out.totalTokens = 0 && durationMs = 0 then none
  else some
    { sources := metadataSourcesOf reg out
      tokens := if out.totalTokens > 0 then some out.totalTokens else none
      model := modelName
      duration_ms := durationMs }

/-- `chat.generate_stream` (`chat.py` lines 177-372) as a function from
the oracle's event list to the emitted SSE events and the final store.

Parameters: `startTs` is the `start` timestamp, `now1` the user-message
insertion time, `doneTs` the completion time (so `duration_ms = doneTs -
startTs`), `now2` the time of the rollback or assistant insertion, and
`modelName` the configured model identifier.  The two `Raises` flags
model a database exception inside `add_message` for the user and the
assistant message respectively (the failed call leaves the store
unchanged because `add_message` runs in one transaction); every other
step is modelled as non-throwing.  On an exception the `except` handler
(lines 343-372) rolls back the user message if it was saved and yields
one generic `error` event — in particular an assistant-persistence
failure occurs after `done` was already yielded, so the client sees an
`error` event after `done`.  The branches, in order:

1. user-message insertion raises: `start` then the handler's `error`;
2. the oracle stream carried an `error` key: the tokens so far and the
   loop's `error` event, with the compensating delete applied;
3. empty `full_text`: no assistant insert, `metadata?` then `done`;
4. assistant insertion raises after `done`: compensating delete and a
   trailing `error` event;
5. normal completion: assistant message recorded after `done`. -/
def generate_stream (reg : Registry) (db : DB) (cid message : String)
    (bevts : List BedrockEvent) (startTs now1 doneTs now2 : Nat)
    (userSaveRaises assistantSaveRaises : Bool) (modelName : String) : List SSE × DB :=
  if userSaveRaises then
    ([SSE.start cid startTs, SSE.error "INTERNAL_ERROR" "서버 오류가 발생했습니다"], db)
  else if (runLoop bevts).errored then
    (SSE.start cid startTs :: (runLoop bevts).sse,
     (remove_last_message (add_message db cid "user" message none now1).1 cid
       (some "user") now2).1)
  else if (runLoop bevts).fullText = "" then
    (SSE.start cid startTs :: (runLoop bevts).sse ++ metaEvtsOf reg (runLoop bevts)
       ++ [SSE.done (runLoop bevts).totalTokens (doneTs - startTs)],
     (add_message db cid "user" message none now1).1)
  else if assistantSaveRaises then
    (SSE.start cid startTs :: (runLoop bevts).sse ++ metaEvtsOf reg (runLoop bevts)
       ++ [SSE.done (runLoop bevts).totalTokens (doneTs - startTs),
           SSE.error "INTERNAL_ERROR" "서버 오류가 발생했습니다"],
     (remove_last_message (add_message db cid "user" message none now1).1 cid
       (some "user") now2).1)
  else
    (SSE.start cid startTs :: (runLoop bevts).sse ++ metaEvtsOf reg (runLoop bevts)
       ++ [SSE.done (runLoop bevts).totalTokens (doneTs - startTs)],
     (add_message (add_message db cid "user" message none now1).1 cid "assistant"
       (runLoop bevts).fullText
       (assistantMetaOf reg (runLoop bevts) (doneTs - startTs) modelName) now2).1)

/-! ### Request validation and the chat endpoint (`app/routers/chat.py`
lines 41-382, `app/models/chat.py`) -/

/-- `ChatRequest` (`app/models/chat.py`): `message` is required
(pydantic enforces `max_length=2000` but no minimum length), everything
else is optional. -/
structure ChatRequest where
  message : String
  conversation_id : Option String := none
  group_code : Option String := none
  corp_id : Option String := none
  employee_id : Option String := none
  name : Option String := none
  department : Option String := none
deriving DecidableEq, Repr

/-- The UUID regex of `chat.py` line 94:
`^[0-9a-f]{8}-[0-9a-f]{4}-[0-9a-f]{4}-[0-9a-f]{4}-[0-9a-f]{12}$`. -/
def isLowerHex (c : Char) : Bool := c.isDigit || ('a' ≤ c && c ≤ 'f')

def isUuidFormat (s : String) : Bool :=
  match (splitOnChar '-' s.data).map String.mk with
  | [a, b, c, d, e] =>
    a.length = 8 && b.length = 4 && c.length = 4 && d.length = 4 && e.length = 12 &&
      (a ++ b ++ c ++ d ++ e).data.all isLowerHex
  | _ => false

/-- Outcome of the synchronous validation part of the `chat` handler:
either an `HTTPException` (status, error code) raised before the
streaming response is created, or the conversation id to stream under. -/
inductive ChatInit where
  | reject (status : Nat) (ecode : String)
  | proceed (cid : String)
deriving DecidableEq, Repr

/-- New-conversation branch of the `chat` handler (`chat.py` lines
126-175): requires `corp_id`, `name` and `department`, then inserts the
conversation row. -/
def newConversationInit (db : DB) (req : ChatRequest) (cid : String) (now0 : Nat) :
    ChatInit × DB :=
  if isFalsy req.corp_id then (.reject 400 "INVALID_REQUEST", db)
  else if isFalsy req.name then (.reject 400 "INVALID_REQUEST", db)
  else if isFalsy req.department then (.reject 400 "INVALID_REQUEST", db)
  else
    (.proceed cid,
     (create_conversation db cid (req.corp_id.getD "") (req.employee_id.getD "")
        (req.name.getD "") (req.department.getD "") none now0).1)

/-- Validation phase of the `chat` handler (`chat.py` lines 56-175),
run before any SSE event: message length, required `employee_id` and
`group_code`, `conversation_id` format, ownership of an existing
conversation, and lazy creation of a new conversation (`freshId` models
`Conversation.generate_conversation_id()`).  There is no emptiness
check on `message`. -/
def chatInitFull (db : DB) (req : ChatRequest) (freshId : String) (now0 : Nat) :
    ChatInit × DB :=
  if req.message.length > 2000 then (.reject 400 "MESSAGETOOLONG", db)
  else if isFalsy req.employee_id then (.reject 400 "INVALID_REQUEST", db)
  else if isFalsy req.group_code then (.reject 400 "INVALID_REQUEST", db)
  else
    match req.conversation_id with
    | some rcid =>
      if isUuidFormat rcid = false then (.reject 400 "INVALID_REQUEST", db)
      else
        match get_conversation db rcid with
        | some cd =>
          if isFalsy req.employee_id = false && cd.1.employee_id ≠ req.employee_id.getD "" then
            (.reject 403 "NOT_OWNER", db)
          else (.proceed rcid, db)
        | none => newConversationInit db req rcid now0
    | none => newConversationInit db req freshId now0

/-- Result of `POST /chat`: an `HTTPException` raised before the stream
opens (no SSE event, the store as the handler left it), or the
streaming response. -/
inductive ChatOutcome where
  | rejected (status : Nat) (ecode : String) (db : DB)
  | streamed (events : List SSE) (db : DB)
deriving DecidableEq, Repr

def ChatOutcome.isStreamed : ChatOutcome → Bool
  | .streamed _ _ => true
  | _ => false

/-- The whole `chat` handler: validation, then `generate_stream`. -/
def chatEndpoint (reg : Registry) (db : DB) (req : ChatRequest) (freshId : String)
    (bevts : List BedrockEvent) (now0 startTs now1 doneTs now2 : Nat)
    (userSaveRaises assistantSaveRaises : Bool) (modelName : String) : ChatOutcome :=
  match chatInitFull db req freshId now0 with
  | (.reject s c, db') => .rejected s c db'
  | (.proceed cid, db') =>
    let r := generate_stream reg db' cid req.message bevts startTs now1 doneTs now2
      userSaveRaises assistantSaveRaises modelName
    .streamed r.1 r.2

/-! ### History endpoints (`app/routers/history.py`) -/

/-- `if employee_id and conversation.employee_id != employee_id`
(`history.py` lines 81, 120, 175): the ownership rejection fires only
for a truthy caller identity that differs from the owner. -/
def ownerMismatch (employee_id : Option String) (owner : String) : Bool :=
  isFalsy employee_id = false && owner ≠ employee_id.getD ""

/-- Outcome of `GET /history/{conversation_id}` (`history.py` lines
55-92). -/
inductive DetailOut where
  | notFound
  | notOwner
  | ok (conv : ConvRow) (msgs : List MsgRow)
deriving DecidableEq, Repr

def DetailOut.isOk : DetailOut → Bool
  | .ok _ _ => true
  | _ => false

def get_conversation_detail (db : DB) (cid : String) (employee_id : Option String) :
    DetailOut :=
  match get_conversation db cid with
  | none => .notFound
  | some cd => if ownerMismatch employee_id cd.1.employee_id then .notOwner else .ok cd.1 cd.2

/-- Outcome of the mutating history endpoints. -/
inductive MutOut where
  | notFound
  | notOwner
  | internalError
  | ok
deriving DecidableEq, Repr

/-- `PUT /history/{conversation_id}/title` (`history.py` lines 95-148). -/
def update_title_route (db : DB) (cid title : String) (employee_id : Option String)
    (now : Nat) : MutOut × DB :=
  match get_conversation db cid with
  | none => (.notFound, db)
  | some cd =>
    if ownerMismatch employee_id cd.1.employee_id then (.notOwner, db)
    else
      let r := update_conversation_title db cid title now
      match r.2 with
      | none => (.internalError, r.1)
      | some _ => (.ok, r.1)

/-- `DELETE /history/{conversation_id}` (`history.py` lines 151-202). -/
def delete_conversation_route (db : DB) (cid : String) (employee_id : Option String) :
    MutOut × DB :=
  match get_conversation db cid with
  | none => (.notFound, db)
  | some cd =>
    if ownerMismatch employee_id cd.1.employee_id then (.notOwner, db)
    else
      let r := delete_conversation db cid
      if r.2 then (.ok, r.1) else (.internalError, r.1)

/-! ### Helper lemmas -/

/-- `find?` over a `map` by a function that does not change the tested
predicate. -/
theorem find?_map_pres {α : Type} (f : α → α) (p : α → Bool) (l : List α)
    (h : ∀ a, p (f a) = p a) : (l.map f).find? p = (l.find? p).map f := by
  induction l with
  | nil => rfl
  | cons a l ih =>
    simp only [List.map_cons, List.find?]
    rw [h a]
    cases hp : p a <;> simp [ih]

theorem bumpConv_cid (now : Nat) (cid : String) (c : ConvRow) :
    (bumpConv now cid c).conversation_id = c.conversation_id := by
  unfold bumpConv; split <;> rfl

theorem decConv_cid (now : Nat) (cid : String) (c : ConvRow) :
    (decConv now cid c).conversation_id = c.conversation_id := by
  unfold decConv; split <;> rfl

/-- Whatever the `pickStep` fold returns satisfies any property holding
of the accumulator and of every list element. -/
theorem pickStep_foldl_prop (Q : MsgRow → Prop) (l : List MsgRow) (acc : Option MsgRow)
    (hacc : ∀ b, acc = some b → Q b) (hl : ∀ x ∈ l, Q x) (b : MsgRow)
    (h : l.foldl pickStep acc = some b) : Q b := by
  induction l generalizing acc with
  | nil => exact hacc b h
  | cons x rest ih =>
    refine ih (pickStep acc x) ?_ (fun y hy => hl y (List.mem_cons_of_mem _ hy)) h
    intro b' hb'
    have hx : Q x := hl x (List.mem_cons_self _ _)
    cases acc with
    | none =>
      simp only [pickStep] at hb'
      cases hb'
      exact hx
    | some a =>
      simp only [pickStep] at hb'
      by_cases hlt : laterThan a x = true
      · rw [if_pos hlt] at hb'; cases hb'; exact hx
      · rw [if_neg hlt] at hb'; cases hb'; exact hacc _ rfl

theorem pickLast_mem_prop (Q : MsgRow → Prop) (l : List MsgRow)
    (hl : ∀ x ∈ l, Q x) (b : MsgRow) (h : pickLast l = some b) : Q b :=
  pickStep_foldl_prop Q l none (by intro b hb; cases hb) hl b h

/-- `ORDER BY created_at DESC LIMIT 1` over `l ++ [m]` selects `m` when
`m` sorts strictly after every element of `l`. -/
theorem pickLast_concat (l : List MsgRow) (m : MsgRow)
    (h : ∀ x ∈ l, laterThan x m = true) : pickLast (l ++ [m]) = some m := by
  unfold pickLast
  rw [List.foldl_append]
  cases hp : l.foldl pickStep none with
  | none => rfl
  | some b =>
    have hb : laterThan b m = true :=
      pickLast_mem_prop (fun x => laterThan x m = true) l h b hp
    simp [pickStep, hb]

/-- The message row inserted by `add_message`. -/
def mkMsg (id : Nat) (cid role content : String) (md : Option MessageMeta) (now : Nat) :
    MsgRow :=
  { message_id := id
    conversation_id := cid
    role := role
    content := content
    metadata := md
    created_at := now }

theorem add_message_eq_of_found (db : DB) (cid role content : String)
    (md : Option MessageMeta) (now : Nat) (c : ConvRow) (hc : lookupConv db cid = some c) :
    add_message db cid role content md now =
      ({ conversations := db.conversations.map (bumpConv now cid)
         messages := db.messages ++ [mkMsg db.next_message_id cid role content md now]
         next_message_id := db.next_message_id + 1 },
       some (mkMsg db.next_message_id cid role content md now)) := by
  unfold add_message
  rw [hc]
  rfl

/-- Recording a user message and then compensating with
`remove_last_message(conversation_id, role="user")` restores the message
table exactly and returns the conversation to its pre-turn message
count, provided message ids are fresh and every existing user message of
the conversation is timestamped strictly before the new one — under
that hypothesis the new row is the unique `ORDER BY created_at DESC`
maximum, so the deleted row is determined however the database orders
equal timestamps. -/
theorem add_then_remove_user (db : DB) (cid content : String) (md : Option MessageMeta)
    (now1 now2 : Nat) (c : ConvRow)
    (hc : lookupConv db cid = some c)
    (hfresh : ∀ m ∈ db.messages, m.message_id < db.next_message_id)
    (hts : ∀ m ∈ db.messages, msgMatches cid (some "user") m = true → m.created_at < now1) :
    (remove_last_message (add_message db cid "user" content md now1).1 cid (some "user") now2).1.messages
      = db.messages ∧
    (lookupConv (remove_last_message (add_message db cid "user" content md now1).1 cid
        (some "user") now2).1 cid).map ConvRow.message_count = some c.message_count := by
  have hadd := add_message_eq_of_found db cid "user" content md now1 c hc
  have hlook1 : lookupConv (add_message db cid "user" content md now1).1 cid
      = some (bumpConv now1 cid c) := by
    rw [hadd]
    show (db.conversations.map (bumpConv now1 cid)).find? (fun x => x.conversation_id = cid)
      = some (bumpConv now1 cid c)
    rw [find?_map_pres (bumpConv now1 cid) _ db.conversations
      (by intro a; simp [bumpConv_cid])]
    rw [show db.conversations.find? (fun x => x.conversation_id = cid) = some c from hc]
    rfl
  have hpick : pickLast ((add_message db cid "user" content md now1).1.messages.filter
        (msgMatches cid (some "user")))
      = some (mkMsg db.next_message_id cid "user" content md now1) := by
    rw [hadd]
    show pickLast ((db.messages ++ [mkMsg db.next_message_id cid "user" content md now1]).filter
        (msgMatches cid (some "user"))) = _
    rw [List.filter_append]
    have hone : ([mkMsg db.next_message_id cid "user" content md now1]).filter
        (msgMatches cid (some "user")) = [mkMsg db.next_message_id cid "user" content md now1] := by
      simp [msgMatches, mkMsg]
    rw [hone]
    apply pickLast_concat
    intro x hx
    have hx' := List.mem_filter.mp hx
    have h1 : x.created_at < now1 := hts x hx'.1 hx'.2
    unfold laterThan mkMsg
    simp [h1]
  have hrem : remove_last_message (add_message db cid "user" content md now1).1 cid
      (some "user") now2 =
      ({ conversations := ((add_message db cid "user" content md now1).1.conversations).map
           (decConv now2 cid)
         messages := ((add_message db cid "user" content md now1).1.messages).filter
           (fun x => x.message_id ≠ (mkMsg db.next_message_id cid "user" content md now1).message_id)
         next_message_id := (add_message db cid "user" content md now1).1.next_message_id },
       true) := by
    unfold remove_last_message
    rw [hlook1, hpick]
  rw [hrem]
  constructor
  · show ((add_message db cid "user" content md now1).1.messages).filter
      (fun x => x.message_id ≠ (mkMsg db.next_message_id cid "user" content md now1).message_id)
        = db.messages
    rw [hadd]
    show (db.messages ++ [mkMsg db.next_message_id cid "user" content md now1]).filter
      (fun x => x.message_id ≠ (mkMsg db.next_message_id cid "user" content md now1).message_id)
        = db.messages
    rw [List.filter_append]
    have h1 : ([mkMsg db.next_message_id cid "user" content md now1]).filter
        (fun x => x.message_id ≠ (mkMsg db.next_message_id cid "user" content md now1).message_id)
        = [] := by
      simp [mkMsg]
    have h2 : db.messages.filter
        (fun x => x.message_id ≠ (mkMsg db.next_message_id cid "user" content md now1).message_id)
        = db.messages := by
      apply List.filter_eq_self.mpr
      intro a ha
      simpa [mkMsg] using Nat.ne_of_lt (hfresh a ha)
    rw [h1, h2, List.append_nil]
  · show ((((add_message db cid "user" content md now1).1.conversations).map
      (decConv now2 cid)).find? (fun x => x.conversation_id = cid)).map ConvRow.message_count
        = some c.message_count
    rw [hadd]
    show (((db.conversations.map (bumpConv now1 cid)).map (decConv now2 cid)).find?
      (fun x => x.conversation_id = cid)).map ConvRow.message_count = some c.message_count
    rw [find?_map_pres (decConv now2 cid) _ _ (by intro a; simp [decConv_cid])]
    rw [find?_map_pres (bumpConv now1 cid) _ _ (by intro a; simp [bumpConv_cid])]
    rw [show db.conversations.find? (fun x => x.conversation_id = cid) = some c from hc]
    have hcid : c.conversation_id = cid := by
      have := List.find?_some hc
      simpa using this
    simp [bumpConv, decConv, hcid]

/-- Lists consisting solely of `token` events. -/
def TokensOnly (l : List SSE) : Prop := ∀ t ∈ l, t.isToken = true

/-- An optional single `metadata` event. -/
def MetaOpt (ms : List SSE) : Prop := ms = [] ∨ ∃ s, ms = [SSE.metadata s]

/-- Invariant of the streaming loop state: the events emitted so far are
tokens, optionally closed by a single `error` event exactly when the
error branch has run. -/
def SseInv (st : LoopState) : Prop :=
  ∃ toks, TokensOnly toks ∧
    ((st.errored = false ∧ st.sse = toks) ∨
     (st.errored = true ∧ ∃ a b, st.sse = toks ++ [SSE.error a b]))

theorem loopStep_inv (st : LoopState) (e : BedrockEvent) (h : SseInv st) :
    SseInv (loopStep st e) := by
  obtain ⟨toks, htoks, hcase⟩ := h
  unfold loopStep
  by_cases herr : st.errored = true
  · rw [if_pos herr]
    exact ⟨toks, htoks, hcase⟩
  · rw [if_neg herr]
    rcases hcase with ⟨_, hsse⟩ | ⟨habs, _⟩
    · cases he : e.error with
      | some tm =>
        refine ⟨toks, htoks, Or.inr ⟨rfl, tm.1, tm.2, ?_⟩⟩
        simp [hsse]
      | none =>
        by_cases ht : e.text = ""
        · exact ⟨toks, htoks, Or.inl ⟨rfl, by simp [ht, hsse]⟩⟩
        · refine ⟨toks ++ (chunk10 e.text).map SSE.token, ?_, Or.inl ⟨rfl, by simp [ht, hsse]⟩⟩
          intro t htmem
          rcases List.mem_append.mp htmem with hm | hm
          · exact htoks t hm
          · obtain ⟨s, _, rfl⟩ := List.mem_map.mp hm
            rfl
    · exact absurd habs herr

theorem foldl_loopStep_inv (bevts : List BedrockEvent) (st : LoopState) (h : SseInv st) :
    SseInv (bevts.foldl loopStep st) := by
  induction bevts generalizing st with
  | nil => exact h
  | cons e rest ih => exact ih (loopStep st e) (loopStep_inv st e h)

theorem runLoop_inv (bevts : List BedrockEvent) : SseInv (runLoop bevts) := by
  apply foldl_loopStep_inv
  refine ⟨[], ?_, Or.inl ⟨rfl, rfl⟩⟩
  intro t ht
  cases ht

/-- The `errored` flag agrees with the ending of `sse`. -/
theorem runLoop_errored_shape (bevts : List BedrockEvent) :
    ((runLoop bevts).errored = true →
      ∃ toks a b, TokensOnly toks ∧ (runLoop bevts).sse = toks ++ [SSE.error a b]) ∧
    ((runLoop bevts).errored = false →
      ∃ toks, TokensOnly toks ∧ (runLoop bevts).sse = toks) := by
  obtain ⟨toks, htoks, hcase⟩ := runLoop_inv bevts
  constructor
  · intro herr
    rcases hcase with ⟨hfalse, _⟩ | ⟨_, a, b, hsse⟩
    · rw [herr] at hfalse; cases hfalse
    · exact ⟨toks, a, b, htoks, hsse⟩
  · intro herr
    rcases hcase with ⟨_, hsse⟩ | ⟨htrue, _⟩
    · exact ⟨toks, htoks, hsse⟩
    · rw [herr] at htrue; cases htrue

/-- With an empty allow-list every hit is partitioned by `hasUri` alone:
a hit with no usable URI is allowed, every other hit is blocked. -/
theorem filterTriple_nil_paths (reg : Registry) (hits : List RetrievalHit) :
    (filterTriple reg [] hits).1 = hits.filter (fun h => !(hasUri h)) ∧
    (filterTriple reg [] hits).2.1 = hits.filter (fun h => hasUri h) := by
  induction hits with
  | nil => exact ⟨rfl, rfl⟩
  | cons h rest ih =>
    obtain ⟨ih1, ih2⟩ := ih
    show ((filterStep reg [] h (filterTriple reg [] rest)).1 = _ ∧
      (filterStep reg [] h (filterTriple reg [] rest)).2.1 = _)
    unfold filterStep
    by_cases hu : hasUri h = false
    · rw [if_pos hu]
      simp [List.filter_cons, hu, ih1, ih2]
    · rw [if_neg hu]
      have hu' : hasUri h = true := by
        cases hv : hasUri h
        · exact absurd hv hu
        · rfl
      cases hd : extract_kb_domain_from_s3_uri reg (h.s3_uri.getD "") with
      | some d =>
        cases hp : (findDomain reg d).map (fun k => k.s3_path) with
        | some p =>
          have hnp : ¬ (p ≠ "" ∧ p ∈ ([] : List String)) := by
            rintro ⟨-, hmem⟩
            cases hmem
          simp [hp, hnp, List.filter_cons, hu', ih1, ih2]
        | none =>
          simp [hp, List.filter_cons, hu', ih1, ih2]
      | none =>
        simp [pathMatch, List.filter_cons, hu', ih1, ih2]

/-- Each loop iteration either allows the hit untouched, blocks it and
records its domain, or blocks it without recording a domain. -/
theorem filterStep_cases (reg : Registry) (paths : List String) (h : RetrievalHit)
    (r : List RetrievalHit × List RetrievalHit × List String) :
    filterStep reg paths h r = (h :: r.1, r.2.1, r.2.2) ∨
    (∃ d, filterStep reg paths h r = (r.1, h :: r.2.1, insertDomain d r.2.2)) ∨
    filterStep reg paths h r = (r.1, h :: r.2.1, r.2.2) := by
  unfold filterStep
  by_cases hu : hasUri h = false
  · rw [if_pos hu]
    exact Or.inl rfl
  · rw [if_neg hu]
    cases hd : extract_kb_domain_from_s3_uri reg (h.s3_uri.getD "") with
    | some d =>
      cases hp : (findDomain reg d).map (fun k => k.s3_path) with
      | some p =>
        by_cases hin : p ≠ "" ∧ p ∈ paths
        · simp only [hp, if_pos hin]
          exact Or.inl trivial
        · simp only [hp, if_neg hin]
          exact Or.inr (Or.inl ⟨d, rfl⟩)
      | none =>
        simp only [hp]
        exact Or.inr (Or.inl ⟨d, rfl⟩)
    | none =>
      by_cases hpm : pathMatch paths (h.s3_uri.getD "") = true
      · simp only [if_pos hpm]
        exact Or.inl trivial
      · simp only [if_neg hpm]
        exact Or.inr (Or.inr trivial)

/-- A non-empty `blocked_domains` forces a non-empty blocked list:
domains are only recorded while blocking a hit. -/
theorem filterTriple_bd_needs_blocked (reg : Registry) (paths : List String)
    (hits : List RetrievalHit) :
    (filterTriple reg paths hits).2.2 ≠ [] → (filterTriple reg paths hits).2.1 ≠ [] := by
  induction hits with
  | nil => intro hbd; exact absurd rfl hbd
  | cons h rest ih =>
    show (filterStep reg paths h (filterTriple reg paths rest)).2.2 ≠ [] →
      (filterStep reg paths h (filterTriple reg paths rest)).2.1 ≠ []
    rcases filterStep_cases reg paths h (filterTriple reg paths rest) with he | ⟨d, he⟩ | he <;>
      rw [he]
    · exact ih
    · intro _
      simp
    · intro _
      simp

/-- Removing every occurrence of an element that `f` sends to `none`
does not change a `filterMap`. -/
theorem filterMap_erase_none {α β : Type} (f : α → Option β) (c : α) [DecidableEq α]
    (hc : f c = none) (l : List α) :
    (l.filter (fun x => x ≠ c)).filterMap f = l.filterMap f := by
  induction l with
  | nil => rfl
  | cons x rest ih =>
    by_cases hx : x = c
    · subst hx
      rw [List.filter_cons_of_neg (by simp), List.filterMap_cons_none hc]
      exact ih
    · rw [List.filter_cons_of_pos (by simpa using hx), List.filterMap_cons,
        List.filterMap_cons]
      simp only [decide_not] at ih
      cases f x <;> simp [decide_not, ih]

/-! ### Concrete fixtures used by counterexamples and witnesses -/

/-- A registry with a single domain under `hr/`. -/
def regHR : Registry := { kb_domains := [⟨"IN_HR", "hr", "hr/"⟩], group_codes := [] }

/-- A registry whose prefixes are nested (`hr/` before `hr/payroll/` in
iteration order) plus one with duplicate prefixes. -/
def regNested : Registry :=
  { kb_domains := [⟨"IN_ALL", "all", "hr/"⟩, ⟨"IN_PAY", "payroll", "hr/payroll/"⟩]
    group_codes := [] }

def regDup : Registry :=
  { kb_domains := [⟨"D1", "one", "hr/"⟩, ⟨"D2", "two", "hr/"⟩], group_codes := [] }

/-- A registry where group `G1` references the unknown code `BOGUS`. -/
def regMixed : Registry :=
  { kb_domains := [⟨"IN_HR", "hr", "hr/"⟩]
    group_codes := [⟨"G1", "IN_HR, BOGUS"⟩] }

/-- A hit with no `s3Location` URI. -/
def hitNoUri : RetrievalHit := { s3_uri := none, content := "snippet" }

/-- A hit under a path no registry prefix matches. -/
def hitUnknown : RetrievalHit := { s3_uri := some "s3://bucket/zzz/doc.pdf", content := "c" }

/-- A hit classified under `IN_HR`. -/
def hitHR : RetrievalHit := { s3_uri := some "s3://bucket/hr/doc.pdf", content := "c" }

/-! ### C1 — fail-closed resolution and the empty-allow-list filter -/

/-- C1, counterexample: the claim says filtering any non-empty hit list
against the empty allowed-prefix set blocks every hit; a hit without a
storage URI refutes it — with `groupCode` absent the resolved set is
empty, yet the hit lands in `allowed` (`bedrock.py` lines 479-481). -/
theorem C1_counterexample :
    get_allowed_s3_paths regHR none = [] ∧
    (filter_retrieval_results regHR [hitNoUri] (get_allowed_s3_paths regHR none)).allowed
      = [hitNoUri] := by decide

/-- C1 (amended): for a turn whose group code is absent, empty, unknown,
or mapped to an empty domain list, the resolved allowed-prefix set is
empty, and filtering against it blocks exactly the hits that carry a
usable storage URI; hits with no (or empty) URI are default-allowed. -/
theorem C1_fail_closed (reg : Registry) (g : Option String) (hits : List RetrievalHit)
    (hg : g = none ∨ g = some "" ∨
      (∃ s, g = some s ∧ findGroup reg s = none) ∨
      (∃ s gi, g = some s ∧ findGroup reg s = some gi ∧ splitCSV gi.kb_domains = [])) :
    get_allowed_s3_paths reg g = [] ∧
    (filter_retrieval_results reg hits (get_allowed_s3_paths reg g)).allowed
      = hits.filter (fun h => !(hasUri h)) ∧
    (filter_retrieval_results reg hits (get_allowed_s3_paths reg g)).blocked
      = hits.filter (fun h => hasUri h) := by
  have h0 : get_allowed_s3_paths reg g = [] := by
    rcases hg with rfl | rfl | ⟨s, rfl, hfind⟩ | ⟨s, gi, rfl, hfind, hsplit⟩
    · rfl
    · rfl
    · unfold get_allowed_s3_paths
      by_cases hf : isFalsy (some s) = true
      · rw [if_pos hf]
      · rw [if_neg hf]
        show (match findGroup reg s with
          | none => ([] : List String)
          | some gi => (splitCSV gi.kb_domains).filterMap
              (fun c => (findDomain reg c).map (fun d => d.s3_path))) = []
        rw [hfind]
    · unfold get_allowed_s3_paths
      by_cases hf : isFalsy (some s) = true
      · rw [if_pos hf]
      · rw [if_neg hf]
        show (match findGroup reg s with
          | none => ([] : List String)
          | some gi => (splitCSV gi.kb_domains).filterMap
              (fun c => (findDomain reg c).map (fun d => d.s3_path))) = []
        rw [hfind]
        simp [hsplit]
  refine ⟨h0, ?_, ?_⟩
  · rw [h0]
    show (filterTriple reg [] hits).1 = _
    exact (filterTriple_nil_paths reg hits).1
  · rw [h0]
    show (filterTriple reg [] hits).2.1 = _
    exact (filterTriple_nil_paths reg hits).2

/-- C1 witness: the amended theorem at group code `"NOPE"` (unknown to
`regHR`) and a two-hit list. -/
theorem C1_witness :
    get_allowed_s3_paths regHR (some "NOPE") = [] ∧
    (filter_retrieval_results regHR [hitNoUri, hitUnknown]
        (get_allowed_s3_paths regHR (some "NOPE"))).allowed = [hitNoUri] ∧
    (filter_retrieval_results regHR [hitNoUri, hitUnknown]
        (get_allowed_s3_paths regHR (some "NOPE"))).blocked = [hitUnknown] := by
  have h := C1_fail_closed regHR (some "NOPE") [hitNoUri, hitUnknown]
    (Or.inr (Or.inr (Or.inl ⟨"NOPE", rfl, by decide⟩)))
  refine ⟨h.1, ?_, ?_⟩
  · rw [h.2.1]
    decide
  · rw [h.2.2]
    decide

/-! ### C2 — first-match classification, not longest-match -/

/-- C2, counterexample: with prefixes `hr/` (domain `IN_ALL`) and
`hr/payroll/` (domain `IN_PAY`) configured in that order, the path
`hr/payroll/doc.pdf` is matched by both, the longer match being
`IN_PAY`, yet classification returns `IN_ALL` — the first match in
iteration order, not the longest.  With two duplicate prefixes
classification returns the first domain instead of raising anything. -/
theorem C2_counterexample :
    extract_kb_domain_from_s3_uri regNested "s3://bucket/hr/payroll/doc.pdf" = some "IN_ALL" ∧
    strStartsWith (uriPath "s3://bucket/hr/payroll/doc.pdf") "hr/payroll/" = true ∧
    ("hr/payroll/" : String).length > ("hr/" : String).length ∧
    extract_kb_domain_from_s3_uri regDup "s3://bucket/hr/doc.pdf" = some "D1" := by decide

/-- C2 (amended): classification extracts the path component of the
storage URI and returns the code of the FIRST registry domain, in
iteration order, whose `s3_path` is a string prefix of that path —
every earlier domain does not match; overlapping or duplicate prefixes
are resolved by that order and no error of any kind is raised. -/
theorem C2_first_match (reg : Registry) (uri c : String) :
    extract_kb_domain_from_s3_uri reg uri = some c ↔
      ∃ d pre post, reg.kb_domains = pre ++ d :: post ∧ d.code = c ∧
        strStartsWith (uriPath uri) d.s3_path = true ∧
        ∀ d' ∈ pre, strStartsWith (uriPath uri) d'.s3_path = false := by
  unfold extract_kb_domain_from_s3_uri
  constructor
  · intro h
    obtain ⟨d, hfind, hcode⟩ := Option.map_eq_some'.mp h
    obtain ⟨hpd, pre, post, heq, hpre⟩ := List.find?_eq_some.mp hfind
    exact ⟨d, pre, post, heq, hcode, hpd, fun d' hd' => by simpa using hpre d' hd'⟩
  · rintro ⟨d, pre, post, heq, hcode, hpd, hpre⟩
    have hfind : reg.kb_domains.find?
        (fun k : KBDomain => strStartsWith (uriPath uri) k.s3_path) = some d := by
      rw [List.find?_eq_some]
      exact ⟨hpd, pre, post, heq, fun a ha => by simpa using hpre a ha⟩
    rw [hfind, Option.map_some', hcode]

/-! ### C3 — `violated` tracks the blocked list, not `blockedDomains` -/

/-- C3, counterexample: a hit whose URI matches no registry prefix is
blocked without recording any domain (`bedrock.py` lines 510-516), so
`has_permission_violation` is true while `blocked_domains` is empty —
refuting the claimed equivalence. -/
theorem C3_counterexample :
    (filter_retrieval_results regHR [hitUnknown] []).has_permission_violation = true ∧
    (filter_retrieval_results regHR [hitUnknown] []).blocked_domains = [] := by decide

/-- C3 (amended): `violated` is true iff the blocked hit list is
non-empty; a non-empty `blockedDomains` still implies `violated`, but
not conversely, because unclassifiable blocked hits record no domain. -/
theorem C3_violated_iff_blocked (reg : Registry) (hits : List RetrievalHit)
    (paths : List String) :
    ((filter_retrieval_results reg hits paths).has_permission_violation = true ↔
      (filter_retrieval_results reg hits paths).blocked ≠ []) ∧
    ((filter_retrieval_results reg hits paths).blocked_domains ≠ [] →
      (filter_retrieval_results reg hits paths).has_permission_violation = true) := by
  constructor
  · show decide ((filterTriple reg paths hits).2.1 ≠ []) = true ↔
      (filterTriple reg paths hits).2.1 ≠ []
    simp
  · intro hbd
    show decide ((filterTriple reg paths hits).2.1 ≠ []) = true
    exact decide_eq_true (filterTriple_bd_needs_blocked reg paths hits hbd)

/-- C3 witness: the amended theorem's implication at a blocked
classified hit. -/
theorem C3_witness :
    (filter_retrieval_results regHR [hitHR] ["zz/"]).has_permission_violation = true :=
  (C3_violated_iff_blocked regHR [hitHR] ["zz/"]).2 (by decide)

/-! ### C7 — unknown domain codes are silently dropped -/

/-- C7, counterexample: group `G1` references the unknown code `BOGUS`;
resolution returns `["hr/"]` normally — the unknown code is dropped and
no `ConfigurationInconsistency` (no error of any kind) is raised
(`bedrock.py` lines 350-352 skip codes missing from the registry). -/
theorem C7_counterexample :
    get_allowed_s3_paths regMixed (some "G1") = ["hr/"] ∧
    "BOGUS" ∈ splitCSV "IN_HR, BOGUS" ∧
    findDomain regMixed "BOGUS" = none := by decide

/-- C7 (amended): a domain code referenced by a known group but absent
from the registry is silently skipped: resolution returns normally and
the result equals the resolution of the group's code list with that
code removed. -/
theorem C7_silent_drop (reg : Registry) (g : String) (gi : GroupInfo) (c : String)
    (hne : g ≠ "") (hg : findGroup reg g = some gi)
    (hc : c ∈ splitCSV gi.kb_domains) (hmiss : findDomain reg c = none) :
    get_allowed_s3_paths reg (some g) =
      ((splitCSV gi.kb_domains).filter (fun x => x ≠ c)).filterMap
        (fun x => (findDomain reg x).map (fun d => d.s3_path)) := by
  unfold get_allowed_s3_paths
  have hf : isFalsy (some g) = false := by simp [isFalsy, hne]
  rw [if_neg (by simp [hf])]
  show (match findGroup reg g with
    | none => ([] : List String)
    | some g2 => (splitCSV g2.kb_domains).filterMap
        (fun x : String => (findDomain reg x).map (fun k : KBDomain => k.s3_path))) = _
  rw [hg]
  exact (filterMap_erase_none _ c (by simp [hmiss]) _).symm

/-- C7 witness: the amended theorem at group `G1` of `regMixed` and its
dangling code `BOGUS`. -/
theorem C7_witness :
    get_allowed_s3_paths regMixed (some "G1") =
      ((splitCSV (GroupInfo.mk "G1" "IN_HR, BOGUS").kb_domains).filter (fun x => x ≠ "BOGUS")).filterMap
        (fun x => (findDomain regMixed x).map (fun d => d.s3_path)) :=
  C7_silent_drop regMixed "G1" (GroupInfo.mk "G1" "IN_HR, BOGUS") "BOGUS"
    (by decide) (by decide) (by decide) (by decide)

/-! ### C9 / C10 — persistence properties of `add_message` and friends -/

/-- Key integrity of the store as a boolean check: every stored message
references an existing conversation. -/
def refIntactB (db : DB) : Bool :=
  db.messages.all (fun m => db.conversations.any (fun c => c.conversation_id = m.conversation_id))

theorem refIntactB_iff (db : DB) :
    refIntactB db = true ↔
      ∀ m ∈ db.messages, ∃ c ∈ db.conversations, c.conversation_id = m.conversation_id := by
  simp [refIntactB, List.all_eq_true, List.any_eq_true]

/-- C9 (confirmed): `add_message` runs the existence check, the message
INSERT and the conversation bookkeeping UPDATE in one transaction
(`db_service.py` lines 179-208); as one state transition it either
inserts the message AND increments `message_count` / touches
`updated_at` together (leaving every other conversation untouched), or
— when the conversation does not exist — changes nothing and returns
`None`. -/
theorem C9_record_atomic (db : DB) (cid role content : String) (md : Option MessageMeta)
    (now : Nat) :
    (∀ c, lookupConv db cid = some c →
      (add_message db cid role content md now).2
        = some (mkMsg db.next_message_id cid role content md now) ∧
      (add_message db cid role content md now).1.messages
        = db.messages ++ [mkMsg db.next_message_id cid role content md now] ∧
      lookupConv (add_message db cid role content md now).1 cid
        = some { c with message_count := c.message_count + 1, updated_at := now } ∧
      ∀ cid2 c2, cid2 ≠ cid → lookupConv db cid2 = some c2 →
        lookupConv (add_message db cid role content md now).1 cid2 = some c2) ∧
    (lookupConv db cid = none → add_message db cid role content md now = (db, none)) := by
  constructor
  · intro c hc
    have hadd := add_message_eq_of_found db cid role content md now c hc
    refine ⟨by rw [hadd], by rw [hadd], ?_, ?_⟩
    · rw [hadd]
      show (db.conversations.map (bumpConv now cid)).find?
        (fun x => x.conversation_id = cid) = _
      rw [find?_map_pres (bumpConv now cid) _ _ (fun a => by simp [bumpConv_cid])]
      rw [show db.conversations.find? (fun x => x.conversation_id = cid) = some c from hc]
      have hcid : c.conversation_id = cid := by simpa using List.find?_some hc
      simp [bumpConv, hcid]
    · intro cid2 c2 hne hc2
      rw [hadd]
      show (db.conversations.map (bumpConv now cid)).find?
        (fun x => x.conversation_id = cid2) = _
      rw [find?_map_pres (bumpConv now cid) _ _ (fun a => by simp [bumpConv_cid])]
      rw [show db.conversations.find? (fun x => x.conversation_id = cid2) = some c2 from hc2]
      have hcid2 : c2.conversation_id = cid2 := by simpa using List.find?_some hc2
      simp [bumpConv, hcid2, hne]
  · intro hc
    unfold add_message
    rw [hc]

/-- A valid conversation id and its row, used by concrete stores. -/
def cid1 : String := "11111111-1111-1111-1111-111111111111"

def convRow1 : ConvRow :=
  { conversation_id := cid1
    corp_id := "SH001"
    employee_id := "E001"
    user_name := "Alice"
    department := "Sales"
    title := "t"
    message_count := 0
    created_at := 0
    updated_at := 0 }

def dbOne : DB := { conversations := [convRow1], messages := [], next_message_id := 1 }

/-- C9 witness: the atomicity theorem applied to a one-conversation
store, in both the found and the not-found case. -/
theorem C9_witness :
    (add_message dbOne cid1 "assistant" "hello" none 5).2
      = some (mkMsg 1 cid1 "assistant" "hello" none 5) ∧
    lookupConv (add_message dbOne cid1 "assistant" "hello" none 5).1 cid1
      = some { convRow1 with message_count := 1, updated_at := 5 } ∧
    add_message dbOne "nope" "user" "x" none 5 = (dbOne, none) := by
  have h := (C9_record_atomic dbOne cid1 "assistant" "hello" none 5).1 convRow1 (by decide)
  refine ⟨?_, ?_, ?_⟩
  · rw [h.1]
    decide
  · rw [h.2.2.1]
    decide
  · exact (C9_record_atomic dbOne "nope" "user" "x" none 5).2 (by decide)

/-- C10 (confirmed): `add_message` with a non-existent conversation id
inserts nothing, updates nothing and returns `None` (`db_service.py`
lines 180-187), and every write path of `db_service.py` preserves the
invariant that each stored message references an existing
conversation. -/
theorem C10_referential_integrity (db : DB) (cid role content : String)
    (md : Option MessageMeta) (now : Nat) (cid2 corp eid uname dept : String)
    (title : Option String) (cid3 : String) (role3 : Option String) (cid4 : String) :
    (lookupConv db cid = none → add_message db cid role content md now = (db, none)) ∧
    (refIntactB db = true → refIntactB (add_message db cid role content md now).1 = true) ∧
    (refIntactB db = true →
      refIntactB (create_conversation db cid2 corp eid uname dept title now).1 = true) ∧
    (refIntactB db = true → refIntactB (remove_last_message db cid3 role3 now).1 = true) ∧
    (refIntactB db = true → refIntactB (delete_conversation db cid4).1 = true) := by
  refine ⟨?_, ?_, ?_, ?_, ?_⟩
  · intro hc
    unfold add_message
    rw [hc]
  · intro h
    rw [refIntactB_iff] at h ⊢
    cases hl : lookupConv db cid with
    | none =>
      rw [(by unfold add_message; rw [hl] : add_message db cid role content md now = (db, none))]
      exact h
    | some c =>
      rw [add_message_eq_of_found db cid role content md now c hl]
      intro m hm
      rcases List.mem_append.mp hm with hold | hnew
      · obtain ⟨c0, hc0mem, hc0⟩ := h m hold
        exact ⟨bumpConv now cid c0, List.mem_map_of_mem _ hc0mem, by rw [bumpConv_cid, hc0]⟩
      · have hmeq : m = mkMsg db.next_message_id cid role content md now := by
          simpa using hnew
        have hcmem : c ∈ db.conversations := List.mem_of_find?_eq_some hl
        have hcid : c.conversation_id = cid := by simpa using List.find?_some hl
        refine ⟨bumpConv now cid c, List.mem_map_of_mem _ hcmem, ?_⟩
        rw [bumpConv_cid, hcid, hmeq]
        rfl
  · intro h
    rw [refIntactB_iff] at h ⊢
    unfold create_conversation
    intro m hm
    obtain ⟨c0, hc0mem, hc0⟩ := h m hm
    exact ⟨c0, List.mem_append_left _ hc0mem, hc0⟩
  · intro h
    rw [refIntactB_iff] at h ⊢
    unfold remove_last_message
    cases hl : lookupConv db cid3 with
    | none => exact h
    | some c =>
      cases hp : pickLast (db.messages.filter (msgMatches cid3 role3)) with
      | none => exact h
      | some m0 =>
        intro m hm
        have hmem : m ∈ db.messages := List.mem_of_mem_filter hm
        obtain ⟨c0, hc0mem, hc0⟩ := h m hmem
        exact ⟨decConv now cid3 c0, List.mem_map_of_mem _ hc0mem, by rw [decConv_cid, hc0]⟩
  · intro h
    rw [refIntactB_iff] at h ⊢
    unfold delete_conversation
    cases hl : lookupConv db cid4 with
    | none => exact h
    | some c =>
      intro m hm
      have hmem := List.mem_filter.mp hm
      obtain ⟨c0, hc0mem, hc0⟩ := h m hmem.1
      refine ⟨c0, List.mem_filter.mpr ⟨hc0mem, ?_⟩, hc0⟩
      have : m.conversation_id ≠ cid4 := by simpa using hmem.2
      simp [hc0, this]

/-- C10 witness: the theorem applied to a concrete one-conversation
store. -/
theorem C10_witness :
    add_message dbOne "nope" "user" "x" none 5 = (dbOne, none) ∧
    refIntactB (add_message dbOne cid1 "user" "x" none 5).1 = true ∧
    refIntactB (delete_conversation dbOne cid1).1 = true := by
  have h := C10_referential_integrity dbOne "nope" "user" "x" none 5
    cid1 "SH001" "E001" "Alice" "Sales" none cid1 (some "user") cid1
  have h2 := C10_referential_integrity dbOne cid1 "user" "x" none 5
    cid1 "SH001" "E001" "Alice" "Sales" none cid1 (some "user") cid1
  exact ⟨h.1 (by decide), h2.2.1 (by decide), h2.2.2.2.2 (by decide)⟩

/-! ### C4 — saga rollback on a mid-stream generation failure -/

/-- C4 (confirmed): for a turn whose oracle stream fails after the user
message was recorded (the loop ends in the error branch) and before any
assistant message is recorded, the compensating
`remove_last_message(conversation_id, role="user")` removes exactly the
persisted user message: the final message table equals the pre-turn one
and the conversation's `message_count` equals its pre-turn value.
Hypotheses: the conversation exists, stored message ids are below the
serial counter, and every stored user message of this conversation is
timestamped strictly before the new one (wall-clock monotonicity) — so
the compensating `ORDER BY created_at DESC LIMIT 1` delete has a unique
maximum and its effect does not depend on how the database orders equal
timestamps. -/
theorem C4_saga_rollback (reg : Registry) (db : DB) (cid message : String)
    (bevts : List BedrockEvent) (startTs now1 doneTs now2 : Nat) (asr : Bool)
    (modelName : String) (c : ConvRow)
    (hc : lookupConv db cid = some c)
    (hfresh : ∀ m ∈ db.messages, m.message_id < db.next_message_id)
    (hts : ∀ m ∈ db.messages, msgMatches cid (some "user") m = true → m.created_at < now1)
    (herr : (runLoop bevts).errored = true) :
    (generate_stream reg db cid message bevts startTs now1 doneTs now2 false asr
        modelName).2.messages = db.messages ∧
    (lookupConv (generate_stream reg db cid message bevts startTs now1 doneTs now2 false asr
        modelName).2 cid).map ConvRow.message_count = some c.message_count := by
  have hgen : generate_stream reg db cid message bevts startTs now1 doneTs now2 false asr
      modelName
      = (SSE.start cid startTs :: (runLoop bevts).sse,
         (remove_last_message (add_message db cid "user" message none now1).1 cid
           (some "user") now2).1) := by
    unfold generate_stream
    rw [if_neg (by simp), if_pos herr]
  rw [hgen]
  exact add_then_remove_user db cid message none now1 now2 c hc hfresh hts

/-- C4 witness: the rollback theorem at a one-conversation store and an
oracle stream that errors immediately. -/
theorem C4_witness :
    (generate_stream regHR dbOne cid1 "q" [{ error := some ("InvokeModelError", "boom") }]
        1 2 3 4 false false "m").2.messages = [] ∧
    (lookupConv (generate_stream regHR dbOne cid1 "q"
        [{ error := some ("InvokeModelError", "boom") }] 1 2 3 4 false false "m").2 cid1).map
      ConvRow.message_count = some 0 := by
  have h := C4_saga_rollback regHR dbOne cid1 "q"
    [{ error := some ("InvokeModelError", "boom") }] 1 2 3 4 false "m" convRow1
    (by decide) (by decide) (by decide) (by decide)
  exact h

/-! ### C5 — the event stream's shape -/

/-- C5, counterexample: when the assistant insertion fails after `done`
was emitted (branch 4 of `generate_stream`, `chat.py` lines 336-372),
the client receives an `error` event AFTER the `done` event — two
terminal events, refuting "no event at all follows the terminal
event". -/
theorem C5_counterexample :
    (generate_stream regHR dbOne cid1 "question" [{ text := "hi there" }] 1 2 3 4 false true
        "m").1
      = [SSE.start cid1 1, SSE.token "hi there", SSE.done 0 2,
         SSE.error "INTERNAL_ERROR" "서버 오류가 발생했습니다"] ∧
    ((generate_stream regHR dbOne cid1 "question" [{ text := "hi there" }] 1 2 3 4 false true
        "m").1.filter SSE.isTerminal).length = 2 := by decide

/-- The optional metadata block really is at most one `metadata`
event. -/
theorem metaOpt_metaEvtsOf (reg : Registry) (out : LoopState) :
    MetaOpt (metaEvtsOf reg out) := by
  unfold metaEvtsOf MetaOpt
  by_cases hm : (out.citations.isEmpty && out.results.isEmpty) = true
  · rw [if_pos hm]
    exact Or.inl rfl
  · rw [if_neg hm]
    exact Or.inr ⟨metadataSourcesOf reg out, rfl⟩

/-- C5 (amended): every emitted stream starts with `start`, followed by
token events only, and ends in exactly one of three tails: a single
`error` event (validation of the turn passed but the user insert or the
oracle stream failed), an optional `metadata` event followed by a final
`done`, or — only when the assistant insertion fails after `done` — an
optional `metadata`, then `done`, then one trailing `error`.  In
particular `token` and `metadata` never appear after a terminal event,
`done` is emitted at most once, and the only event that can follow a
terminal event is the `error` of a failed assistant persistence. -/
theorem C5_stream_shape (reg : Registry) (db : DB) (cid message : String)
    (bevts : List BedrockEvent) (startTs now1 doneTs now2 : Nat) (usr asr : Bool)
    (modelName : String) :
    ∃ toks, TokensOnly toks ∧
      ((∃ a b,
        (generate_stream reg db cid message bevts startTs now1 doneTs now2 usr asr modelName).1
          = SSE.start cid startTs :: toks ++ [SSE.error a b]) ∨
       (∃ ms tt dm, MetaOpt ms ∧
        (generate_stream reg db cid message bevts startTs now1 doneTs now2 usr asr modelName).1
          = SSE.start cid startTs :: toks ++ ms ++ [SSE.done tt dm]) ∨
       (asr = true ∧ ∃ ms tt dm a b, MetaOpt ms ∧
        (generate_stream reg db cid message bevts startTs now1 doneTs now2 usr asr modelName).1
          = SSE.start cid startTs :: toks ++ ms ++ [SSE.done tt dm, SSE.error a b])) := by
  by_cases husr : usr = true
  · subst husr
    refine ⟨[], ?_, Or.inl ⟨"INTERNAL_ERROR", "서버 오류가 발생했습니다", rfl⟩⟩
    intro t ht
    cases ht
  · have husr' : usr = false := by revert husr; cases usr <;> simp
    subst husr'
    cases herr : (runLoop bevts).errored with
    | true =>
      obtain ⟨toks, a, b, htoks, hsse⟩ := (runLoop_errored_shape bevts).1 herr
      refine ⟨toks, htoks, Or.inl ⟨a, b, ?_⟩⟩
      have hgen : (generate_stream reg db cid message bevts startTs now1 doneTs now2 false asr
          modelName).1 = SSE.start cid startTs :: (runLoop bevts).sse := by
        unfold generate_stream
        rw [if_neg (by simp), if_pos herr]
      rw [hgen, hsse]
      simp
    | false =>
      obtain ⟨toks, htoks, hsse⟩ := (runLoop_errored_shape bevts).2 herr
      have hnerr : ¬ ((runLoop bevts).errored = true) := by rw [herr]; simp
      by_cases hft : (runLoop bevts).fullText = ""
      · refine ⟨toks, htoks, Or.inr (Or.inl ⟨metaEvtsOf reg (runLoop bevts),
          (runLoop bevts).totalTokens, doneTs - startTs, metaOpt_metaEvtsOf reg _, ?_⟩)⟩
        have hgen : (generate_stream reg db cid message bevts startTs now1 doneTs now2 false asr
            modelName).1
            = SSE.start cid startTs :: (runLoop bevts).sse ++ metaEvtsOf reg (runLoop bevts)
              ++ [SSE.done (runLoop bevts).totalTokens (doneTs - startTs)] := by
          unfold generate_stream
          rw [if_neg (by simp), if_neg hnerr, if_pos hft]
        rw [hgen, hsse]
      · by_cases hasr : asr = true
        · subst hasr
          refine ⟨toks, htoks, Or.inr (Or.inr ⟨rfl, metaEvtsOf reg (runLoop bevts),
            (runLoop bevts).totalTokens, doneTs - startTs,
            "INTERNAL_ERROR", "서버 오류가 발생했습니다", metaOpt_metaEvtsOf reg _, ?_⟩)⟩
          have hgen : (generate_stream reg db cid message bevts startTs now1 doneTs now2 false
              true modelName).1
              = SSE.start cid startTs :: (runLoop bevts).sse ++ metaEvtsOf reg (runLoop bevts)
                ++ [SSE.done (runLoop bevts).totalTokens (doneTs - startTs),
                    SSE.error "INTERNAL_ERROR" "서버 오류가 발생했습니다"] := by
            unfold generate_stream
            rw [if_neg (by simp), if_neg hnerr, if_neg hft, if_pos rfl]
          rw [hgen, hsse]
        · have hasr' : asr = false := by revert hasr; cases asr <;> simp
          subst hasr'
          refine ⟨toks, htoks, Or.inr (Or.inl ⟨metaEvtsOf reg (runLoop bevts),
            (runLoop bevts).totalTokens, doneTs - startTs, metaOpt_metaEvtsOf reg _, ?_⟩)⟩
          have hgen : (generate_stream reg db cid message bevts startTs now1 doneTs now2 false
              false modelName).1
              = SSE.start cid startTs :: (runLoop bevts).sse ++ metaEvtsOf reg (runLoop bevts)
                ++ [SSE.done (runLoop bevts).totalTokens (doneTs - startTs)] := by
            unfold generate_stream
            rw [if_neg (by simp), if_neg hnerr, if_neg hft, if_neg (by simp)]
          rw [hgen, hsse]

/-! ### C6 — ownership enforcement and its identity-less gap -/

/-- C6, counterexample: the history detail endpoint checks ownership via
`if employee_id and conversation.employee_id != employee_id`
(`history.py` line 81), so a caller with NO employee identity (header
absent → `None`, or empty) is handed the conversation of owner `E001`
without any ownership verification. -/
theorem C6_counterexample :
    (get_conversation_detail dbOne cid1 none).isOk = true ∧
    (get_conversation_detail dbOne cid1 (some "")).isOk = true ∧
    convRow1.employee_id = "E001" := by decide

/-- C6 (amended): whenever the caller presents a NON-EMPTY employee
identity that differs from the conversation's recorded owner, the
detail read, the title update and the delete are rejected with the
ownership error before any mutation, and a chat turn addressing that
conversation is rejected 403 before any event is emitted or message
persisted; a caller with an absent or empty identity bypasses the
history endpoints' ownership check. -/
theorem C6_ownership_enforced (db : DB) (cid e title : String) (c : ConvRow)
    (ms : List MsgRow) (now : Nat) (reg : Registry) (req : ChatRequest) (freshId : String)
    (bevts : List BedrockEvent) (now0 startTs now1 doneTs now2 : Nat) (usr asr : Bool)
    (modelName : String) (rcid : String)
    (he : e ≠ "") :
    (get_conversation db cid = some (c, ms) → c.employee_id ≠ e →
      get_conversation_detail db cid (some e) = .notOwner) ∧
    (get_conversation db cid = some (c, ms) → c.employee_id ≠ e →
      update_title_route db cid title (some e) now = (.notOwner, db)) ∧
    (get_conversation db cid = some (c, ms) → c.employee_id ≠ e →
      delete_conversation_route db cid (some e) = (.notOwner, db)) ∧
    (req.employee_id = some e → req.conversation_id = some rcid →
      req.message.length ≤ 2000 → isFalsy req.group_code = false →
      isUuidFormat rcid = true → get_conversation db rcid = some (c, ms) →
      c.employee_id ≠ e →
      chatEndpoint reg db req freshId bevts now0 startTs now1 doneTs now2 usr asr modelName
        = .rejected 403 "NOT_OWNER" db) := by
  refine ⟨?_, ?_, ?_, ?_⟩
  · intro hgc hne
    unfold get_conversation_detail
    rw [hgc]
    simp [ownerMismatch, isFalsy, he, hne]
  · intro hgc hne
    unfold update_title_route
    rw [hgc]
    simp [ownerMismatch, isFalsy, he, hne]
  · intro hgc hne
    unfold delete_conversation_route
    rw [hgc]
    simp [ownerMismatch, isFalsy, he, hne]
  · intro hemp hcid hlen hgrp huuid hgc hne
    have hinit : chatInitFull db req freshId now0 = (.reject 403 "NOT_OWNER", db) := by
      unfold chatInitFull
      rw [if_neg (Nat.not_lt.mpr hlen)]
      rw [if_neg (by rw [hemp]; simp [isFalsy, he])]
      rw [if_neg (by simp [hgrp])]
      rw [hcid]
      simp [huuid, hgc, hemp, isFalsy, he, hne]
    unfold chatEndpoint
    rw [hinit]

/-- A chat request from employee `E999` addressing `E001`'s
conversation. -/
def reqOther : ChatRequest :=
  { message := "hi"
    conversation_id := some cid1
    group_code := some "GRP_IN_ALL"
    corp_id := some "SH001"
    employee_id := some "E999"
    name := some "Bob"
    department := some "Sales" }

/-- C6 witness: the amended theorem at `E999` versus owner `E001`. -/
theorem C6_witness :
    get_conversation_detail dbOne cid1 (some "E999") = .notOwner ∧
    update_title_route dbOne cid1 "t2" (some "E999") 9 = (.notOwner, dbOne) ∧
    delete_conversation_route dbOne cid1 (some "E999") = (.notOwner, dbOne) ∧
    chatEndpoint regHR dbOne reqOther "00000000-0000-0000-0000-000000000000" [] 0 1 2 3 4
      false false "m" = .rejected 403 "NOT_OWNER" dbOne := by
  have h := C6_ownership_enforced dbOne cid1 "E999" "t2" convRow1 [] 9 regHR reqOther
    "00000000-0000-0000-0000-000000000000" [] 0 1 2 3 4 false false "m" cid1 (by decide)
  exact ⟨h.1 (by decide) (by decide), h.2.1 (by decide) (by decide),
    h.2.2.1 (by decide) (by decide),
    h.2.2.2 (by decide) (by decide) (by decide) (by decide) (by decide) (by decide) (by decide)⟩

/-! ### C8 — request validation and the missing empty-message check -/

/-- An empty store and a well-formed request whose message is empty. -/
def dbEmpty : DB := { conversations := [], messages := [], next_message_id := 1 }

def reqEmptyMsg : ChatRequest :=
  { message := ""
    conversation_id := none
    group_code := some "GRP_IN_ALL"
    corp_id := some "SH001"
    employee_id := some "E001"
    name := some "Alice"
    department := some "Sales" }

/-- C8, counterexample: neither the pydantic model (`max_length` only,
no minimum, `app/models/chat.py` line 10) nor the handler
(`chat.py` lines 56-90) rejects an empty message — a request with
`message = ""` passes validation and reaches the streaming phase. -/
theorem C8_counterexample :
    reqEmptyMsg.message = "" ∧
    (chatEndpoint regHR dbEmpty reqEmptyMsg "00000000-0000-0000-0000-000000000000" []
      0 1 2 3 4 false false "m").isStreamed = true := by decide

/-- C8 (amended): validation rejects an over-length message, a missing
(or empty) caller identity and a missing (or empty) group code with an
HTTP 400 client error before the streaming response is created — the
rejection carries no stream events and leaves the store untouched.  An
empty message is NOT rejected and proceeds to streaming. -/
theorem C8_validation_rejects (reg : Registry) (db : DB) (req : ChatRequest)
    (freshId : String) (bevts : List BedrockEvent) (now0 startTs now1 doneTs now2 : Nat)
    (usr asr : Bool) (modelName : String)
    (h : req.message.length > 2000 ∨ isFalsy req.employee_id = true ∨
      isFalsy req.group_code = true) :
    ∃ ecode, chatEndpoint reg db req freshId bevts now0 startTs now1 doneTs now2 usr asr
      modelName = .rejected 400 ecode db := by
  unfold chatEndpoint chatInitFull
  by_cases h1 : req.message.length > 2000
  · rw [if_pos h1]
    exact ⟨"MESSAGETOOLONG", rfl⟩
  · rw [if_neg h1]
    by_cases h2 : isFalsy req.employee_id = true
    · rw [if_pos h2]
      exact ⟨"INVALID_REQUEST", rfl⟩
    · rw [if_neg h2]
      by_cases h3 : isFalsy req.group_code = true
      · rw [if_pos h3]
        exact ⟨"INVALID_REQUEST", rfl⟩
      · rcases h with h | h | h
        · exact absurd h h1
        · exact absurd h h2
        · exact absurd h h3

/-- C8 witness: the rejection theorem at a request lacking the caller
identity. -/
theorem C8_witness :
    ∃ ecode, chatEndpoint regHR dbEmpty
      { message := "x", group_code := some "GRP_IN_ALL" }
      "00000000-0000-0000-0000-000000000000" [] 0 1 2 3 4 false false "m"
      = .rejected 400 ecode dbEmpty :=
  C8_validation_rejects regHR dbEmpty { message := "x", group_code := some "GRP_IN_ALL" }
    "00000000-0000-0000-0000-000000000000" [] 0 1 2 3 4 false false "m"
    (Or.inr (Or.inl (by decide)))
